import Mathlib

/-!
# Aegis caching reverse proxy — shallow embedding

A Lean model of the request-handling / cache / failover engine of the
Aegis reverse proxy (`internal/proxy/proxy.go`, `internal/cache/cache.go`,
`internal/utils/http.go`), together with proofs of the specification's
claims about it.

Modelling conventions:
* `time.Time` and `time.Duration` are modelled as `Int` (nanoseconds);
  the zero `time.Time` is `0`, so `IsZero` becomes `= 0` and
  `t.After(u)` becomes `u < t`.
* `http.Header` (a Go map from canonical header names to value lists) is
  modelled as an association list with map semantics: lookups take the
  first matching entry, `Set`/`Add` update the first matching entry or
  append a new one.
* The upstream exchange performed by `ServeHTTP` is modelled by an
  `UpstreamResult` input describing what the network produced
  (build error / transport error / body-read error / a response).
* Byte slices (`[]byte` bodies) are modelled as `String`.
-/

namespace Aegis

/-! ## ASCII case mapping and canonical MIME header keys

`http.CanonicalHeaderKey` delegates to `textproto.CanonicalMIMEHeaderKey`:
if the key contains an invalid header-field byte it is returned unchanged;
otherwise each letter is upper-cased when it follows a hyphen (or starts
the key) and lower-cased otherwise. -/

def toUpperAscii (c : Char) : Char :=
  if 'a' ≤ c ∧ c ≤ 'z' then Char.ofNat (c.toNat - 32) else c

def toLowerAscii (c : Char) : Char :=
  if 'A' ≤ c ∧ c ≤ 'Z' then Char.ofNat (c.toNat + 32) else c

/-- Go `textproto.validHeaderFieldByte`: tokens per RFC 7230
(letters, digits, and the bytes `! # $ % & ' * + - . ^ _ ` | ~`,
written here by code point). -/
def validHeaderFieldChar (c : Char) : Bool :=
  let n := c.toNat
  (0 < n && n < 128) &&
  (('0' ≤ c && c ≤ '9') || ('a' ≤ c && c ≤ 'z') || ('A' ≤ c && c ≤ 'Z') ||
   n == 33 || n == 35 || n == 36 || n == 37 || n == 38 || n == 39 ||
   n == 42 || n == 43 || n == 45 || n == 46 || n == 94 || n == 95 ||
   n == 96 || n == 124 || n == 126)

/-- The case-normalisation loop of `canonicalMIMEHeaderKey`: `upper`
says whether the next letter starts a word (start of key or after `-`). -/
def canonChars : Bool → List Char → List Char
  | _, [] => []
  | upper, c :: rest =>
    let c' := if upper then toUpperAscii c else toLowerAscii c
    c' :: canonChars (c' == '-') rest

/-- Go `http.CanonicalHeaderKey` / `textproto.CanonicalMIMEHeaderKey`. -/
def canonicalHeaderKey (s : String) : String :=
  if s.data.all validHeaderFieldChar then ⟨canonChars true s.data⟩ else s

/-! ## `http.Header` as an association list with map semantics -/

abbrev Header := List (String × List String)

/-- Raw map lookup `h[k]` (exact key). -/
def findEntry (h : Header) (k : String) : Option (List String) :=
  (h.find? (fun e => e.1 == k)).map (·.2)

/-- Go `http.Header.Get`: canonicalise the name, return the first value
of the entry, or `""` when absent/empty. -/
def headerGet (h : Header) (name : String) : String :=
  match findEntry h (canonicalHeaderKey name) with
  | some (v :: _) => v
  | _ => ""

/-- Go `http.Header.Values` (canonicalised lookup, all values). -/
def headerValues (h : Header) (name : String) : List String :=
  (findEntry h (canonicalHeaderKey name)).getD []

/-- Map update `h[k] = append(h[k], v)` for an exact (already canonical) key `k`. -/
def addCanon : Header → String → String → Header
  | [], k, v => [(k, [v])]
  | (k', vs) :: rest, k, v =>
    if k' == k then (k', vs ++ [v]) :: rest
    else (k', vs) :: addCanon rest k v

/-- Go `http.Header.Add`. -/
def headerAdd (h : Header) (name v : String) : Header :=
  addCanon h (canonicalHeaderKey name) v

/-- Map update `h[k] = []string(single v)` for an exact (already canonical) key `k`. -/
def setCanon : Header → String → String → Header
  | [], k, v => [(k, [v])]
  | (k', vs) :: rest, k, v =>
    if k' == k then (k, [v]) :: rest
    else (k', vs) :: setCanon rest k v

/-- Go `http.Header.Set`. -/
def headerSet (h : Header) (name v : String) : Header :=
  setCanon h (canonicalHeaderKey name) v

/-- Go `http.Header.Del`. -/
def headerDel (h : Header) (name : String) : Header :=
  h.filter (fun e => !(e.1 == canonicalHeaderKey name))

/-! ## `internal/utils/http.go` -/

/-- Go `utils.IsHopByHopHeader`. -/
def IsHopByHopHeader (key : String) : Bool :=
  let k := canonicalHeaderKey key
  k == "Connection" || k == "Proxy-Connection" || k == "Keep-Alive" ||
  k == "Proxy-Authenticate" || k == "Proxy-Authorization" || k == "Te" ||
  k == "Trailer" || k == "Transfer-Encoding" || k == "Upgrade"

/-- Go `utils.CopyHeadersForUpstream`: copy all of `src` into `dst` except
hop-by-hop headers. -/
def CopyHeadersForUpstream (dst src : Header) : Header :=
  src.foldl
    (fun acc e =>
      if IsHopByHopHeader e.1 then acc
      else e.2.foldl (fun d v => headerAdd d e.1 v) acc)
    dst

/-- Go `utils.CopyHeadersForClient` (same body as `CopyHeadersForUpstream`). -/
def CopyHeadersForClient (dst src : Header) : Header :=
  src.foldl
    (fun acc e =>
      if IsHopByHopHeader e.1 then acc
      else e.2.foldl (fun d v => headerAdd d e.1 v) acc)
    dst

/-- Go `utils.CloneHeaderSanitized`. -/
def CloneHeaderSanitized (h : Header) : Header :=
  CopyHeadersForClient [] h

/-- The deadline produced by `context.WithDeadline(parent, t)`: the
child's deadline is `t`, unless the parent's deadline is already
earlier, in which case it is inherited. -/
def withDeadlineDeadline (parentDeadline : Option Int) (t : Int) : Int :=
  match parentDeadline with
  | some cur => if cur < t then cur else t
  | none => t

/-- Go `utils.RequestContextWithTimeout`, in terms of the resulting
deadline: if the parent has a deadline with `time.Until(deadline) < d`,
the parent is returned unchanged; otherwise `context.WithTimeout(parent, d)`
(deadline `now + d`, capped by the parent's). -/
def RequestContextWithTimeout (parentDeadline : Option Int) (now d : Int) :
    Option Int :=
  match parentDeadline with
  | some deadline =>
    if deadline - now < d then some deadline
    else some (withDeadlineDeadline (some deadline) (now + d))
  | none => some (withDeadlineDeadline none (now + d))

/-- Go `utils.ZeroOrExpiry` (`now` made explicit): zero time for a
non-positive TTL, otherwise `time.Now().Add(ttl)`. -/
def ZeroOrExpiry (now ttl : Int) : Int :=
  if ttl ≤ 0 then 0 else now + ttl

/-! ## `internal/cache/cache.go` -/

/-- Go `cache.Response`. -/
structure StoredResponse where
  status : Int
  header : Header
  body : String
  savedAt : Int
  expireAt : Int
  deriving Repr, DecidableEq

/-- The zero `cache.Response` value. -/
def zeroResponse : StoredResponse :=
  { status := 0, header := [], body := "", savedAt := 0, expireAt := 0 }

/-- Go `cache.Cache.data`: the underlying map, as an association list with
unique keys. -/
abbrev CacheMap := List (String × StoredResponse)

/-- Raw map lookup `c.data[key]`. -/
def cacheLookup (c : CacheMap) (key : String) : Option StoredResponse :=
  (c.find? (fun e => e.1 == key)).map (·.2)

/-- Go `cache.Cache.Get`, with the state passed explicitly (the method
performs no writes, so the outgoing state is the incoming one): a miss
returns the zero value; an entry with a nonzero `ExpireAt` strictly in
the past returns the zero value and `false`; otherwise the entry. -/
def cacheGet (c : CacheMap) (key : String) (now : Int) :
    CacheMap × StoredResponse × Bool :=
  (c,
    match cacheLookup c key with
    | none => (zeroResponse, false)
    | some v =>
      if v.expireAt != 0 && v.expireAt < now then (zeroResponse, false)
      else (v, true))

/-- Go `cache.Cache.Set`: insert or overwrite. -/
def cacheSet : CacheMap → String → StoredResponse → CacheMap
  | [], key, v => [(key, v)]
  | (k, w) :: rest, key, v =>
    if k == key then (key, v) :: rest
    else (k, w) :: cacheSet rest key v

/-- Go `cache.Cache.Size`, that is `len(c.data)`. -/
def cacheSize (c : CacheMap) : Nat := c.length

/-! ## `internal/proxy/proxy.go` -/

/-- The inbound `*http.Request` fields the engine reads. -/
structure Request where
  method : String
  path : String
  rawQuery : String
  header : Header
  deriving Repr

/-- The proxy configuration the engine reads (`Proxy.ttl`,
`Proxy.keyHeaders`). -/
structure ProxyConfig where
  ttl : Int
  keyHeaders : List String
  deriving Repr

/-- Go `Proxy.cacheKey`. -/
def cacheKey (keyHeaders : List String) (r : Request) : String :=
  let key := r.method ++ " " ++ r.path ++ "?" ++ r.rawQuery
  if keyHeaders.length > 0 then
    keyHeaders.foldl
      (fun key headerName =>
        let headerValue := headerGet r.header headerName
        if headerValue != "" then
          key ++ "|" ++ headerName ++ ":" ++ headerValue
        else key)
      key
  else key

/-- What the network produced for the single upstream attempt: a
request-construction error, a transport error from `client.Do`, an
error while reading the response body, or a complete response. -/
inductive UpstreamResult where
  | buildError (msg : String)
  | transportError (msg : String)
  | readBodyError (msg : String)
  | response (status : Int) (header : Header) (body : String)
  deriving Repr, DecidableEq

/-- The response the handler writes. -/
structure HttpResponse where
  status : Int
  header : Header
  body : String
  deriving Repr

/-- Result of one `ServeHTTP` invocation: the written response and the
cache state afterwards. -/
structure HandleOutput where
  response : HttpResponse
  cache : CacheMap
  deriving Repr

/-- Go `time.Time.Format(time.RFC3339)`, modelled as an injective rendering
of the timestamp (the Gateway only ever uses it as an opaque,
deterministic function of `SavedAt`). -/
def formatRFC3339 (t : Int) : String := "rfc3339:" ++ toString t

/-- Go `http.Error(w, msg, code)`: deletes `Content-Length`, sets the two
plain-text headers, writes the status and `msg` followed by a newline. -/
def httpError (headerIn : Header) (msg : String) (code : Int) : HttpResponse :=
  let h := headerDel headerIn "Content-Length"
  let h := headerSet h "Content-Type" "text/plain; charset=utf-8"
  let h := headerSet h "X-Content-Type-Options" "nosniff"
  { status := code, header := h, body := msg ++ "\n" }

/-- Go `Proxy.tryServeFromCache`. -/
def tryServeFromCache (c : CacheMap) (key cause : String) (now : Int) :
    HandleOutput :=
  let g := cacheGet c key now
  if g.2.2 then
    let cached := g.2.1
    let h := CopyHeadersForClient [] cached.header
    let h := headerSet h "X-Served-By" "Aegis"
    let h := headerSet h "X-Cache" "HIT-BACKUP"
    let h := headerSet h "X-Backup-Saved-At" (formatRFC3339 cached.savedAt)
    { response := { status := cached.status, header := h, body := cached.body },
      cache := g.1 }
  else
    { response :=
        httpError [] ("Bad Gateway (no cached backup): " ++ cause) 502,
      cache := g.1 }

/-- Go `Proxy.ServeHTTP`, given the upstream outcome `result`. Follows the
source: compute cacheability and the key; on build/transport/read
errors fall back (cacheable) or 502 (non-cacheable); on a response,
fall back when `status >= 500 && cacheable`, otherwise forward, storing
the entry when cacheable and the status is in `[200,299]`, and annotate
with `X-Served-By` and `X-Cache`. -/
def serveHTTP (p : ProxyConfig) (c : CacheMap) (r : Request)
    (result : UpstreamResult) (now : Int) : HandleOutput :=
  let cacheable := r.method == "GET" || r.method == "HEAD"
  let key := if cacheable then cacheKey p.keyHeaders r else ""
  match result with
  | .buildError msg =>
    if cacheable then
      tryServeFromCache c key ("build request: " ++ msg) now
    else
      { response := httpError [] ("Bad Gateway: " ++ msg) 502, cache := c }
  | .transportError msg =>
    if cacheable then
      tryServeFromCache c key msg now
    else
      { response := httpError [] ("Bad Gateway: " ++ msg) 502, cache := c }
  | .readBodyError msg =>
    if cacheable then
      tryServeFromCache c key ("read upstream body: " ++ msg) now
    else
      { response := httpError [] ("Bad Gateway: " ++ msg) 502, cache := c }
  | .response status hdr body =>
    if status ≥ 500 && cacheable then
      tryServeFromCache c key ("upstream status " ++ toString status) now
    else
      let outHeader := CopyHeadersForClient [] hdr
      let outHeader := headerSet outHeader "X-Served-By" "Aegis"
      let saveStep :=
        if cacheable && (status ≥ 200 && status ≤ 299) then
          (cacheSet c key
            { status := status, header := CloneHeaderSanitized hdr,
              body := body, savedAt := now,
              expireAt := ZeroOrExpiry now p.ttl }, true)
        else (c, false)
      let outHeader :=
        if saveStep.2 then headerSet outHeader "X-Cache" "MISS"
        else if cacheable then headerSet outHeader "X-Cache" "PASS"
        else headerSet outHeader "X-Cache" "BYPASS"
      { response := { status := status, header := outHeader, body := body },
        cache := saveStep.1 }

/-- Outcome classification used by the spec's §4.4: build/transport/read
errors and `status >= 500` responses are failures. -/
def isFailure : UpstreamResult → Bool
  | .response s _ _ => s ≥ 500
  | _ => true

/-- The cause string the handler attaches to a failure. -/
def failureCause : UpstreamResult → String
  | .buildError msg => "build request: " ++ msg
  | .transportError msg => msg
  | .readBodyError msg => "read upstream body: " ++ msg
  | .response s _ _ => "upstream status " ++ toString s

/-- Whether the upstream attempt ended in an error before a response was
available (build, transport, or body-read error). -/
def isErrorResult : UpstreamResult → Bool
  | .response _ _ _ => false
  | _ => true

/-- The raw error message of an errored upstream attempt. -/
def errorMsg : UpstreamResult → String
  | .buildError msg => msg
  | .transportError msg => msg
  | .readBodyError msg => msg
  | .response _ _ _ => ""

/-! ## Statement-layer helper definitions -/

/-- All values stored in `h` under the exact key `k`. -/
def valsExact (h : Header) (k : String) : List String :=
  (findEntry h k).getD []

/-- All values of the non-hop-by-hop entries of `src` whose canonicalised
name is the (canonical) key `k`, in order. -/
def collectValues (src : Header) (k : String) : List String :=
  ((src.filter
      (fun e => !IsHopByHopHeader e.1 && canonicalHeaderKey e.1 == k)).map
    (·.2)).flatten

/-- The cache-key contribution of one configured header name: empty when
the request carries no (non-empty) value, otherwise `"|<name>:<value>"`. -/
def keySegment (h : Header) (hn : String) : String :=
  let v := headerGet h hn
  if v = "" then "" else "|" ++ hn ++ ":" ++ v

/-- Concatenation of the cache-key segments of a configured header list. -/
def segmentsConcat (h : Header) : List String → String
  | [] => ""
  | hn :: rest => keySegment h hn ++ segmentsConcat h rest

/-- Folding `Add` over a list of values under one exact key. -/
def addValuesCanon (h : Header) (k : String) (vs : List String) : Header :=
  vs.foldl (fun d v => addCanon d k v) h

/-- A concrete store entry whose expiry instant is `5`. -/
def c4Entry : StoredResponse :=
  { status := 200, header := [], body := "b", savedAt := 1, expireAt := 5 }

/-- A concrete store entry, expired at lookup time `9`. -/
def c9Entry : StoredResponse :=
  { status := 200, header := [], body := "stale", savedAt := 2, expireAt := 5 }

/-- A concrete entry stored under a negative TTL (expiry time zero). -/
def c10Entry : StoredResponse :=
  { status := 200, header := [], body := "x", savedAt := 100, expireAt := 0 }

/-! ## Basic lemmas about the store -/

lemma findEntry_cons (a : String) (vs : List String) (t : Header) (k : String) :
    findEntry ((a, vs) :: t) k = if a == k then some vs else findEntry t k := by
  unfold findEntry
  cases h : (a == k) <;> simp [List.find?_cons, h]

lemma cacheLookup_cons (a : String) (v : StoredResponse) (t : CacheMap)
    (k : String) :
    cacheLookup ((a, v) :: t) k = if a == k then some v else cacheLookup t k := by
  unfold cacheLookup
  cases h : (a == k) <;> simp [List.find?_cons, h]

lemma cacheLookup_cacheSet_self (c : CacheMap) (key : String)
    (v : StoredResponse) :
    cacheLookup (cacheSet c key v) key = some v := by
  induction c with
  | nil => simp [cacheSet, cacheLookup_cons]
  | cons e rest ih =>
    obtain ⟨k, w⟩ := e
    by_cases h : k == key
    · simp [cacheSet, h, cacheLookup_cons]
    · simp [cacheSet, h, cacheLookup_cons, ih]

lemma cacheGet_found_iff (c : CacheMap) (key : String) (now : Int) :
    (cacheGet c key now).2.2 = true ↔
      ∃ v, cacheLookup c key = some v ∧ (v.expireAt = 0 ∨ now ≤ v.expireAt) := by
  cases h : cacheLookup c key with
  | none => simp [cacheGet, h]
  | some v =>
    by_cases hexp : v.expireAt ≠ 0 ∧ v.expireAt < now
    · have hcond : (v.expireAt != 0 && decide (v.expireAt < now)) = true := by
        simp [hexp.1, hexp.2]
      simp only [cacheGet, h, hcond, if_true]
      constructor
      · intro hfalse
        simp at hfalse
      · rintro ⟨v', hv', hok⟩
        cases hv'
        rcases hok with h0 | hle
        · exact absurd h0 hexp.1
        · have := hexp.2
          omega
    · have hcond : (v.expireAt != 0 && decide (v.expireAt < now)) = false := by
        push_neg at hexp
        by_cases h0 : v.expireAt = 0
        · simp [h0]
        · simp [h0, hexp h0]
      simp only [cacheGet, h, hcond, Bool.false_eq_true, if_false]
      constructor
      · intro _
        refine ⟨v, rfl, ?_⟩
        by_cases h0 : v.expireAt = 0
        · exact Or.inl h0
        · push_neg at hexp
          have := hexp h0
          exact Or.inr (by omega)
      · intro _
        trivial

/-- Claim C4 (amended): `Get` returns `found = true` iff the key is
present and the entry's `expireAt` is zero or `now` is not strictly
after it (`now ≤ expireAt`); a fresh lookup of a just-set entry with
`TTL > 0` succeeds iff `now ≤ savedAt + TTL`; a miss, and an expired
entry, return the zero value and `false`. -/
theorem c4_get_expiry (c : CacheMap) (key : String) (now : Int) :
    ((cacheGet c key now).2.2 = true ↔
      ∃ v, cacheLookup c key = some v ∧ (v.expireAt = 0 ∨ now ≤ v.expireAt))
    ∧ (∀ v, cacheLookup c key = some v → (v.expireAt = 0 ∨ now ≤ v.expireAt) →
        (cacheGet c key now).2 = (v, true))
    ∧ (cacheLookup c key = none →
        (cacheGet c key now).2 = (zeroResponse, false))
    ∧ (∀ v, cacheLookup c key = some v → v.expireAt ≠ 0 → v.expireAt < now →
        (cacheGet c key now).2 = (zeroResponse, false))
    ∧ (∀ (e : StoredResponse) (ttl : Int), 0 < ttl → 0 ≤ e.savedAt →
        e.expireAt = ZeroOrExpiry e.savedAt ttl →
        ((cacheGet (cacheSet c key e) key now).2.2 = true ↔
          now ≤ e.savedAt + ttl)) := by
  refine ⟨cacheGet_found_iff c key now, ?_, ?_, ?_, ?_⟩
  · intro v hv hok
    rcases hok with hz | hle
    · simp [cacheGet, hv, hz]
    · by_cases hz : v.expireAt = 0
      · simp [cacheGet, hv, hz]
      · have : ¬ v.expireAt < now := by omega
        simp [cacheGet, hv, hz, this]
  · intro hnone
    simp [cacheGet, hnone]
  · intro v hv hz hlt
    simp [cacheGet, hv, hz, hlt]
  · intro e ttl httl hsaved hexp
    have hz : ZeroOrExpiry e.savedAt ttl = e.savedAt + ttl := by
      simp [ZeroOrExpiry]
      omega
    rw [cacheGet_found_iff]
    constructor
    · rintro ⟨v, hv, hok⟩
      rw [cacheLookup_cacheSet_self] at hv
      cases hv
      rcases hok with h0 | hle
      · rw [hexp, hz] at h0
        omega
      · rw [hexp, hz] at hle
        exact hle
    · intro hle
      exact ⟨e, cacheLookup_cacheSet_self c key e,
        Or.inr (by rw [hexp, hz]; exact hle)⟩

/-- Claim C4, counterexample to the claim as stated: at lookup time
`now = expireAt` the code still returns the entry (`time.Now().After`
is strict), while the claimed condition `now < expireAt` fails. -/
theorem c4_counterexample :
    (cacheGet [("k", c4Entry)] "k" 5).2.2 = true ∧
    ¬(c4Entry.expireAt = 0 ∨ (5 : Int) < c4Entry.expireAt) := by
  constructor
  · rfl
  · decide

/-- Claim C4, witness: the amended theorem evaluated on a concrete
store, key and time. -/
theorem c4_witness :
    (cacheGet [("k", c4Entry)] "k" 3).2 = (c4Entry, true) :=
  (c4_get_expiry [("k", c4Entry)] "k" 3).2.1 c4Entry rfl (Or.inr (by decide))

/-- Claim C8: the deadline of the context used for the outbound request
is the minimum of the caller's deadline (when present) and `now + d`. -/
theorem c8_deadline_min (parentDeadline : Option Int) (now d : Int) :
    RequestContextWithTimeout parentDeadline now d =
      some ((parentDeadline.map (fun dl => min dl (now + d))).getD (now + d)) := by
  cases parentDeadline with
  | none => simp [RequestContextWithTimeout, withDeadlineDeadline]
  | some dl =>
    by_cases h : dl - now < d
    · have : min dl (now + d) = dl := min_eq_left (by omega)
      simp [RequestContextWithTimeout, withDeadlineDeadline, h, this]
    · have hge : ¬ dl < now + d := by omega
      have : min dl (now + d) = now + d := min_eq_right (by omega)
      simp [RequestContextWithTimeout, withDeadlineDeadline, h, hge, this]

/-- Claim C9: `Get` passes the store through unchanged — same mapping,
same `Size` — and on the expired branch it answers with the zero value
while the expired entry remains physically present under the key. -/
theorem c9_get_pure (c : CacheMap) (key : String) (now : Int) :
    (cacheGet c key now).1 = c
    ∧ cacheSize (cacheGet c key now).1 = cacheSize c
    ∧ (∀ k, cacheLookup (cacheGet c key now).1 k = cacheLookup c k)
    ∧ (∀ v, cacheLookup c key = some v → v.expireAt ≠ 0 → v.expireAt < now →
        (cacheGet c key now).2 = (zeroResponse, false) ∧
        cacheLookup (cacheGet c key now).1 key = some v) := by
  refine ⟨rfl, rfl, fun _ => rfl, ?_⟩
  intro v hv hz hlt
  exact ⟨by simp [cacheGet, hv, hz, hlt], hv⟩

/-- Claim C9, witness: on a concrete expired entry, `Get` misses with
the zero value while the entry stays present and counted. -/
theorem c9_witness :
    (cacheGet [("k", c9Entry)] "k" 9).2 = (zeroResponse, false) ∧
    cacheLookup (cacheGet [("k", c9Entry)] "k" 9).1 "k" = some c9Entry ∧
    cacheSize (cacheGet [("k", c9Entry)] "k" 9).1 = 1 := by
  have h := c9_get_pure [("k", c9Entry)] "k" 9
  have hexp := h.2.2.2 c9Entry rfl (by decide) (by decide)
  exact ⟨hexp.1, hexp.2, by rw [h.1]; rfl⟩

/-- Claim C10: a non-positive TTL yields the zero expiry time, exactly
as TTL = 0 does, and an entry stored with such an expiry is returned by
`Get` at every later (indeed arbitrary) time. -/
theorem c10_nonpositive_ttl (now ttl : Int) (h : ttl ≤ 0) :
    ZeroOrExpiry now ttl = 0
    ∧ ZeroOrExpiry now ttl = ZeroOrExpiry now 0
    ∧ (∀ (c : CacheMap) (key : String) (e : StoredResponse) (later : Int),
        e.expireAt = ZeroOrExpiry now ttl →
        (cacheGet (cacheSet c key e) key later).2 = (e, true)) := by
  have h0 : ZeroOrExpiry now ttl = 0 := by simp [ZeroOrExpiry, h]
  refine ⟨h0, by simp [ZeroOrExpiry, h], ?_⟩
  intro c key e later he
  have hz : e.expireAt = 0 := by rw [he, h0]
  simp [cacheGet, cacheLookup_cacheSet_self, hz]

/-- Claim C10, witness: TTL `-5` behaves like TTL `0` and the entry is
still retrievable at time `1000000`. -/
theorem c10_witness :
    ZeroOrExpiry 100 (-5) = 0 ∧
    (cacheGet (cacheSet [] "k" c10Entry) "k" 1000000).2 = (c10Entry, true) := by
  have h := c10_nonpositive_ttl 100 (-5) (by decide)
  exact ⟨h.1, h.2.2 [] "k" c10Entry 1000000 (by decide)⟩

/-! ## Lemmas about header maps and the copy operations -/

lemma findEntry_setCanon (k v k' : String) :
    ∀ h : Header, findEntry (setCanon h k v) k' =
      if k' = k then some [v] else findEntry h k'
  | [] => by
    by_cases hk : k' = k
    · simp [setCanon, findEntry_cons, hk]
    · simp [setCanon, findEntry_cons, hk, Ne.symm hk, findEntry]
  | (a, vs) :: rest => by
    by_cases ha : a = k
    · by_cases hk : k' = k
      · simp [setCanon, ha, findEntry_cons, hk]
      · simp [setCanon, ha, findEntry_cons, hk, Ne.symm hk]
    · by_cases hk : k' = k
      · have hak : a ≠ k' := fun h => ha (hk ▸ h)
        simp [setCanon, ha, findEntry_cons, hk, hak,
          findEntry_setCanon k v k rest]
      · simp [setCanon, ha, findEntry_cons, hk, findEntry_setCanon k v k' rest]

lemma findEntry_addCanon (k v k' : String) :
    ∀ h : Header, findEntry (addCanon h k v) k' =
      if k' = k then some ((findEntry h k).getD [] ++ [v])
      else findEntry h k'
  | [] => by
    by_cases hk : k' = k
    · simp [addCanon, findEntry_cons, hk, findEntry]
    · simp [addCanon, findEntry_cons, hk, Ne.symm hk, findEntry]
  | (a, vs) :: rest => by
    by_cases ha : a = k
    · by_cases hk : k' = k
      · simp [addCanon, ha, findEntry_cons, hk]
      · simp [addCanon, ha, findEntry_cons, hk, Ne.symm hk]
    · by_cases hk : k' = k
      · have hak : a ≠ k' := fun h => ha (hk ▸ h)
        simp [addCanon, ha, findEntry_cons, hk, hak, Ne.symm ha,
          findEntry_addCanon k v k rest]
      · simp [addCanon, ha, findEntry_cons, hk, findEntry_addCanon k v k' rest]

lemma valsExact_setCanon (h : Header) (k v k' : String) :
    valsExact (setCanon h k v) k' =
      if k' = k then [v] else valsExact h k' := by
  simp [valsExact, findEntry_setCanon, apply_ite (fun o : Option (List String) => o.getD [])]

lemma valsExact_addCanon (h : Header) (k v k' : String) :
    valsExact (addCanon h k v) k' =
      if k' = k then valsExact h k ++ [v] else valsExact h k' := by
  simp [valsExact, findEntry_addCanon, apply_ite (fun o : Option (List String) => o.getD [])]

lemma valsExact_addValuesCanon (k k' : String) :
    ∀ (vs : List String) (h : Header),
      valsExact (addValuesCanon h k vs) k' =
        if k' = k then valsExact h k' ++ vs else valsExact h k'
  | [], h => by
    by_cases hk : k' = k <;> simp [addValuesCanon, hk]
  | v :: vs, h => by
    have step : addValuesCanon h k (v :: vs) = addValuesCanon (addCanon h k v) k vs := rfl
    rw [step, valsExact_addValuesCanon k k' vs (addCanon h k v)]
    by_cases hk : k' = k
    · simp [hk, valsExact_addCanon]
    · simp [hk, valsExact_addCanon]

lemma findEntry_addValuesCanon_ne (k k' : String) (hk : k' ≠ k) :
    ∀ (vs : List String) (h : Header),
      findEntry (addValuesCanon h k vs) k' = findEntry h k'
  | [], h => rfl
  | v :: vs, h => by
    have step : addValuesCanon h k (v :: vs) = addValuesCanon (addCanon h k v) k vs := rfl
    rw [step, findEntry_addValuesCanon_ne k k' hk vs (addCanon h k v),
      findEntry_addCanon]
    simp [hk]

lemma copyClient_eq_copyUpstream :
    CopyHeadersForClient = CopyHeadersForUpstream := rfl

lemma hop_congr (a b : String)
    (h : canonicalHeaderKey a = canonicalHeaderKey b) :
    IsHopByHopHeader a = IsHopByHopHeader b := by
  simp only [IsHopByHopHeader, h]

lemma copyUpstream_cons (dst : Header) (e : String × List String)
    (src : Header) :
    CopyHeadersForUpstream dst (e :: src) =
      CopyHeadersForUpstream
        (if IsHopByHopHeader e.1 then dst
         else addValuesCanon dst (canonicalHeaderKey e.1) e.2) src := rfl

lemma valsExact_copyUpstream (k : String) :
    ∀ (src dst : Header),
      valsExact (CopyHeadersForUpstream dst src) k =
        valsExact dst k ++ collectValues src k
  | [], dst => by simp [CopyHeadersForUpstream, collectValues]
  | e :: src, dst => by
    rw [copyUpstream_cons]
    by_cases hh : IsHopByHopHeader e.1
    · rw [if_pos hh, valsExact_copyUpstream k src dst]
      simp [collectValues, hh]
    · rw [if_neg hh, valsExact_copyUpstream k src _,
        valsExact_addValuesCanon]
      by_cases hk : k = canonicalHeaderKey e.1
      · simp [collectValues, hh, hk.symm]
      · have : ¬ (canonicalHeaderKey e.1 == k) = true := by
          simp
          exact fun h => hk h.symm
        simp [collectValues, hh, hk, this]

lemma findEntry_copyUpstream_hop (name : String)
    (hname : IsHopByHopHeader name = true) :
    ∀ (src dst : Header),
      findEntry dst (canonicalHeaderKey name) = none →
      findEntry (CopyHeadersForUpstream dst src) (canonicalHeaderKey name) =
        none
  | [], dst, hdst => hdst
  | e :: src, dst, hdst => by
    rw [copyUpstream_cons]
    by_cases hh : IsHopByHopHeader e.1
    · rw [if_pos hh]
      exact findEntry_copyUpstream_hop name hname src dst hdst
    · rw [if_neg hh]
      refine findEntry_copyUpstream_hop name hname src _ ?_
      have hne : canonicalHeaderKey name ≠ canonicalHeaderKey e.1 := by
        intro h
        rw [hop_congr e.1 name h.symm, hname] at hh
        exact hh rfl
      rw [findEntry_addValuesCanon_ne _ _ hne, hdst]

lemma collectValues_hop (src : Header) (name : String)
    (hname : IsHopByHopHeader name = true) :
    collectValues src (canonicalHeaderKey name) = [] := by
  induction src with
  | nil => rfl
  | cons e rest ih =>
    have hfalse : (!IsHopByHopHeader e.1 &&
        (canonicalHeaderKey e.1 == canonicalHeaderKey name)) = false := by
      by_cases hc : canonicalHeaderKey e.1 = canonicalHeaderKey name
      · have he : IsHopByHopHeader e.1 = true := by
          rw [hop_congr e.1 name hc]
          exact hname
        simp [he]
      · simp [hc]
    simp only [collectValues, List.filter_cons, hfalse, Bool.false_eq_true,
      if_false] at ih ⊢
    exact ih

/-- Claim C6: the two header-copy operations reproduce, for every
header name, exactly the values of the source entries whose
canonicalised name matches, except that the nine hop-by-hop headers are
dropped: a hop-by-hop name maps to no values and to no entry at all in
the copied output. -/
theorem c6_hop_by_hop (src : Header) (name : String) :
    (headerValues (CopyHeadersForUpstream [] src) name =
      if IsHopByHopHeader name then []
      else collectValues src (canonicalHeaderKey name))
    ∧ (IsHopByHopHeader name = true →
        findEntry (CopyHeadersForUpstream [] src) (canonicalHeaderKey name) =
          none)
    ∧ (headerValues (CopyHeadersForClient [] src) name =
      if IsHopByHopHeader name then []
      else collectValues src (canonicalHeaderKey name))
    ∧ (IsHopByHopHeader name = true →
        findEntry (CopyHeadersForClient [] src) (canonicalHeaderKey name) =
          none) := by
  have hvals : headerValues (CopyHeadersForUpstream [] src) name =
      if IsHopByHopHeader name then []
      else collectValues src (canonicalHeaderKey name) := by
    have base : headerValues (CopyHeadersForUpstream [] src) name =
        collectValues src (canonicalHeaderKey name) := by
      have := valsExact_copyUpstream (canonicalHeaderKey name) src []
      simpa [headerValues, valsExact, findEntry] using this
    rw [base]
    by_cases hh : IsHopByHopHeader name
    · rw [if_pos hh, collectValues_hop src name hh]
    · rw [if_neg hh]
  refine ⟨hvals, ?_, ?_, ?_⟩
  · intro hname
    exact findEntry_copyUpstream_hop name hname src [] rfl
  · rw [copyClient_eq_copyUpstream]
    exact hvals
  · intro hname
    rw [copyClient_eq_copyUpstream]
    exact findEntry_copyUpstream_hop name hname src [] rfl

/-- Claim C6, witness: evaluating the copy on a concrete header map
with hop-by-hop and ordinary entries. -/
theorem c6_witness :
    headerValues
        (CopyHeadersForUpstream []
          [("Connection", ["keep-alive"]), ("Content-Type", ["text/html"]),
           ("transfer-encoding", ["chunked"]), ("X-Custom", ["a", "b"])])
        "content-type" = ["text/html"] ∧
    findEntry
        (CopyHeadersForUpstream []
          [("Connection", ["keep-alive"]), ("Content-Type", ["text/html"]),
           ("transfer-encoding", ["chunked"]), ("X-Custom", ["a", "b"])])
        (canonicalHeaderKey "Transfer-Encoding") = none := by
  have h1 := (c6_hop_by_hop
    [("Connection", ["keep-alive"]), ("Content-Type", ["text/html"]),
     ("transfer-encoding", ["chunked"]), ("X-Custom", ["a", "b"])]
    "content-type").1
  have h2 := (c6_hop_by_hop
    [("Connection", ["keep-alive"]), ("Content-Type", ["text/html"]),
     ("transfer-encoding", ["chunked"]), ("X-Custom", ["a", "b"])]
    "Transfer-Encoding").2.1
  constructor
  · rw [h1]
    decide
  · exact h2 (by decide)

/-! ## Lemmas about the handler paths -/

lemma headerGet_headerSet (h : Header) (name v name' : String) :
    headerGet (headerSet h name v) name' =
      if canonicalHeaderKey name' = canonicalHeaderKey name then v
      else headerGet h name' := by
  unfold headerGet headerSet
  rw [findEntry_setCanon]
  by_cases hk : canonicalHeaderKey name' = canonicalHeaderKey name
  · simp [hk]
  · simp [hk]

lemma httpError_header (msg : String) (code : Int) :
    (httpError [] msg code).header =
      [("Content-Type", ["text/plain; charset=utf-8"]),
       ("X-Content-Type-Options", ["nosniff"])] := rfl

lemma httpError_plain (msg : String) (code : Int) :
    headerGet (httpError [] msg code).header "X-Served-By" = "" ∧
    headerGet (httpError [] msg code).header "X-Cache" = "" ∧
    (httpError [] msg code).status = code ∧
    (httpError [] msg code).body = msg ++ "\n" := by
  rw [httpError_header]
  refine ⟨by decide, by decide, rfl, rfl⟩

lemma tryServe_cache (c : CacheMap) (key cause : String) (now : Int) :
    (tryServeFromCache c key cause now).cache = c := by
  simp only [tryServeFromCache]
  split <;> rfl

lemma tryServe_hit (c : CacheMap) (key cause : String) (now : Int)
    (hg : (cacheGet c key now).2.2 = true) :
    tryServeFromCache c key cause now =
      { response :=
          { status := (cacheGet c key now).2.1.status,
            header := headerSet (headerSet (headerSet
              (CopyHeadersForClient [] (cacheGet c key now).2.1.header)
              "X-Served-By" "Aegis") "X-Cache" "HIT-BACKUP")
              "X-Backup-Saved-At"
              (formatRFC3339 (cacheGet c key now).2.1.savedAt),
            body := (cacheGet c key now).2.1.body },
        cache := c } := by
  simp only [tryServeFromCache]
  rw [if_pos hg]
  rfl

lemma tryServe_miss (c : CacheMap) (key cause : String) (now : Int)
    (hg : (cacheGet c key now).2.2 = false) :
    tryServeFromCache c key cause now =
      { response :=
          httpError [] ("Bad Gateway (no cached backup): " ++ cause) 502,
        cache := c } := by
  simp only [tryServeFromCache]
  rw [if_neg (by rw [hg]; exact Bool.false_ne_true)]
  rfl

/-- Claim C7: the store is written exactly when the request is
cacheable (GET/HEAD) and the upstream status is in `[200, 299]`; in
every other case, including every error path and every fallback, the
store contents after `ServeHTTP` equal the store contents before. -/
theorem c7_store_gating (p : ProxyConfig) (c : CacheMap) (r : Request)
    (result : UpstreamResult) (now : Int) :
    (serveHTTP p c r result now).cache =
      match result with
      | .response s hdr body =>
        if (r.method == "GET" || r.method == "HEAD") &&
            (s ≥ 200 && s ≤ 299) then
          cacheSet c (cacheKey p.keyHeaders r)
            { status := s, header := CloneHeaderSanitized hdr, body := body,
              savedAt := now, expireAt := ZeroOrExpiry now p.ttl }
        else c
      | _ => c := by
  by_cases hc : (r.method == "GET" || r.method == "HEAD") = true
  · cases result with
    | buildError msg => simp [serveHTTP, hc, tryServe_cache]
    | transportError msg => simp [serveHTTP, hc, tryServe_cache]
    | readBodyError msg => simp [serveHTTP, hc, tryServe_cache]
    | response s hdr body =>
      by_cases h5 : (500 : Int) ≤ s
      · have h299 : ¬ (s ≤ 299) := by omega
        simp [serveHTTP, ge_iff_le, hc, h5, h299, tryServe_cache]
      · by_cases h200 : (200 : Int) ≤ s
        · by_cases h299 : s ≤ 299
          · simp [serveHTTP, ge_iff_le, hc, h5, h200, h299]
          · simp [serveHTTP, ge_iff_le, hc, h5, h200, h299]
        · simp [serveHTTP, ge_iff_le, hc, h5, h200]
  · rw [Bool.not_eq_true] at hc
    cases result with
    | buildError msg => simp [serveHTTP, hc]
    | transportError msg => simp [serveHTTP, hc]
    | readBodyError msg => simp [serveHTTP, hc]
    | response s hdr body => simp [serveHTTP, hc]

lemma xsb_after_xcache (h : Header) (v : String) :
    headerGet (headerSet (headerSet h "X-Served-By" "Aegis") "X-Cache" v)
      "X-Served-By" = "Aegis" := by
  rw [headerGet_headerSet, if_neg (by decide), headerGet_headerSet,
    if_pos rfl]

lemma xcache_after (h : Header) (v : String) :
    headerGet (headerSet h "X-Cache" v) "X-Cache" = v := by
  rw [headerGet_headerSet, if_pos rfl]

lemma hit_chain_xsb (h : Header) (f : String) :
    headerGet (headerSet (headerSet (headerSet h "X-Served-By" "Aegis")
      "X-Cache" "HIT-BACKUP") "X-Backup-Saved-At" f) "X-Served-By" =
      "Aegis" := by
  rw [headerGet_headerSet, if_neg (by decide)]
  exact xsb_after_xcache h "HIT-BACKUP"

lemma hit_chain_xcache (h : Header) (f : String) :
    headerGet (headerSet (headerSet (headerSet h "X-Served-By" "Aegis")
      "X-Cache" "HIT-BACKUP") "X-Backup-Saved-At" f) "X-Cache" =
      "HIT-BACKUP" := by
  rw [headerGet_headerSet, if_neg (by decide)]
  exact xcache_after _ "HIT-BACKUP"

/-- Claim C2 (amended): every response of the handler either carries
`X-Served-By: Aegis` together with an `X-Cache` value among
MISS/PASS/BYPASS/HIT-BACKUP (all forwarded and backup-hit responses),
or is a synthesized 502 error response carrying neither header (the
fallback-miss and non-cacheable-error paths, written via `http.Error`). -/
theorem c2_annotation_headers (p : ProxyConfig) (c : CacheMap) (r : Request)
    (result : UpstreamResult) (now : Int) :
    (headerGet (serveHTTP p c r result now).response.header "X-Served-By" =
        "Aegis" ∧
      (headerGet (serveHTTP p c r result now).response.header "X-Cache" =
          "MISS" ∨
       headerGet (serveHTTP p c r result now).response.header "X-Cache" =
          "PASS" ∨
       headerGet (serveHTTP p c r result now).response.header "X-Cache" =
          "BYPASS" ∨
       headerGet (serveHTTP p c r result now).response.header "X-Cache" =
          "HIT-BACKUP"))
    ∨ ((serveHTTP p c r result now).response.status = 502 ∧
       headerGet (serveHTTP p c r result now).response.header "X-Served-By" =
          "" ∧
       headerGet (serveHTTP p c r result now).response.header "X-Cache" =
          "") := by
  have htry : ∀ key cause,
      (headerGet (tryServeFromCache c key cause now).response.header
          "X-Served-By" = "Aegis" ∧
        (headerGet (tryServeFromCache c key cause now).response.header
            "X-Cache" = "MISS" ∨
         headerGet (tryServeFromCache c key cause now).response.header
            "X-Cache" = "PASS" ∨
         headerGet (tryServeFromCache c key cause now).response.header
            "X-Cache" = "BYPASS" ∨
         headerGet (tryServeFromCache c key cause now).response.header
            "X-Cache" = "HIT-BACKUP"))
      ∨ ((tryServeFromCache c key cause now).response.status = 502 ∧
         headerGet (tryServeFromCache c key cause now).response.header
            "X-Served-By" = "" ∧
         headerGet (tryServeFromCache c key cause now).response.header
            "X-Cache" = "") := by
    intro key cause
    by_cases hg : (cacheGet c key now).2.2 = true
    · left
      rw [tryServe_hit c key cause now hg]
      exact ⟨hit_chain_xsb _ _,
        Or.inr (Or.inr (Or.inr (hit_chain_xcache _ _)))⟩
    · right
      rw [Bool.not_eq_true] at hg
      rw [tryServe_miss c key cause now hg]
      exact ⟨(httpError_plain _ _).2.2.1, (httpError_plain _ _).1,
        (httpError_plain _ _).2.1⟩
  by_cases hc : (r.method == "GET" || r.method == "HEAD") = true
  · cases result with
    | buildError msg =>
      simp only [serveHTTP, hc, if_true]
      exact htry _ _
    | transportError msg =>
      simp only [serveHTTP, hc, if_true]
      exact htry _ _
    | readBodyError msg =>
      simp only [serveHTTP, hc, if_true]
      exact htry _ _
    | response st hdr body =>
      by_cases h5 : (500 : Int) ≤ st
      · simp only [serveHTTP, ge_iff_le, hc, h5, decide_True, Bool.and_self,
          if_true]
        exact htry _ _
      · by_cases h2 : (200 : Int) ≤ st ∧ st ≤ 299
        · left
          simp [serveHTTP, ge_iff_le, hc, h5, h2.1, h2.2]
          exact ⟨xsb_after_xcache _ _, Or.inl (xcache_after _ _)⟩
        · left
          rcases not_and_or.mp h2 with h2a | h2b
          · simp [serveHTTP, ge_iff_le, hc, h5, h2a]
            exact ⟨xsb_after_xcache _ _,
              Or.inr (Or.inl (xcache_after _ _))⟩
          · have h2a : ¬ (st ≤ 299) := h2b
            by_cases h200 : (200 : Int) ≤ st
            · simp [serveHTTP, ge_iff_le, hc, h5, h200, h2a]
              exact ⟨xsb_after_xcache _ _,
                Or.inr (Or.inl (xcache_after _ _))⟩
            · simp [serveHTTP, ge_iff_le, hc, h5, h200]
              exact ⟨xsb_after_xcache _ _,
                Or.inr (Or.inl (xcache_after _ _))⟩
  · rw [Bool.not_eq_true] at hc
    cases result with
    | buildError msg =>
      right
      simp only [serveHTTP, hc, Bool.false_eq_true, if_false]
      exact ⟨(httpError_plain _ _).2.2.1, (httpError_plain _ _).1,
        (httpError_plain _ _).2.1⟩
    | transportError msg =>
      right
      simp only [serveHTTP, hc, Bool.false_eq_true, if_false]
      exact ⟨(httpError_plain _ _).2.2.1, (httpError_plain _ _).1,
        (httpError_plain _ _).2.1⟩
    | readBodyError msg =>
      right
      simp only [serveHTTP, hc, Bool.false_eq_true, if_false]
      exact ⟨(httpError_plain _ _).2.2.1, (httpError_plain _ _).1,
        (httpError_plain _ _).2.1⟩
    | response st hdr body =>
      left
      simp [serveHTTP, hc]
      exact ⟨xsb_after_xcache _ _,
        Or.inr (Or.inr (Or.inl (xcache_after _ _)))⟩

/-- Claim C2, counterexample to the claim as stated: a non-cacheable
request whose upstream attempt fails by transport error is answered by
`http.Error` with a 502 that carries neither `X-Served-By` nor
`X-Cache`. -/
theorem c2_counterexample :
    headerGet (serveHTTP { ttl := 0, keyHeaders := [] } []
        { method := "POST", path := "/p", rawQuery := "", header := [] }
        (.transportError "connection refused") 7).response.header
      "X-Served-By" = "" ∧
    headerGet (serveHTTP { ttl := 0, keyHeaders := [] } []
        { method := "POST", path := "/p", rawQuery := "", header := [] }
        (.transportError "connection refused") 7).response.header
      "X-Cache" = "" ∧
    (serveHTTP { ttl := 0, keyHeaders := [] } []
        { method := "POST", path := "/p", rawQuery := "", header := [] }
        (.transportError "connection refused") 7).response.status = 502 := by
  refine ⟨by decide, by decide, rfl⟩

/-- Claim C3 (amended): for a non-cacheable request, a build, transport
or body-read error is answered with a synthesized 502 whose body names
the cause, with no store fallback and the store unchanged; an upstream
response — even one with status ≥ 500 — is forwarded verbatim with
`X-Cache: BYPASS` (not converted to a 502), again with no fallback and
the store unchanged. -/
theorem c3_noncacheable (p : ProxyConfig) (c : CacheMap) (r : Request)
    (result : UpstreamResult) (now : Int)
    (hnc : (r.method == "GET" || r.method == "HEAD") = false) :
    (isErrorResult result = true →
      (serveHTTP p c r result now).response.status = 502 ∧
      (serveHTTP p c r result now).response.body =
        "Bad Gateway: " ++ errorMsg result ++ "\n" ∧
      (serveHTTP p c r result now).cache = c)
    ∧ (∀ st hdr b, result = .response st hdr b →
        (serveHTTP p c r result now).response.status = st ∧
        (serveHTTP p c r result now).response.body = b ∧
        headerGet (serveHTTP p c r result now).response.header "X-Cache" =
          "BYPASS" ∧
        (serveHTTP p c r result now).cache = c) := by
  cases result with
  | buildError msg =>
    refine ⟨fun _ => ?_, fun st hdr b heq => by cases heq⟩
    simp only [serveHTTP, hnc, Bool.false_eq_true, if_false]
    exact ⟨(httpError_plain _ _).2.2.1, by trivial, by trivial⟩
  | transportError msg =>
    refine ⟨fun _ => ?_, fun st hdr b heq => by cases heq⟩
    simp only [serveHTTP, hnc, Bool.false_eq_true, if_false]
    exact ⟨(httpError_plain _ _).2.2.1, by trivial, by trivial⟩
  | readBodyError msg =>
    refine ⟨fun _ => ?_, fun st hdr b heq => by cases heq⟩
    simp only [serveHTTP, hnc, Bool.false_eq_true, if_false]
    exact ⟨(httpError_plain _ _).2.2.1, by trivial, by trivial⟩
  | response st hdr body =>
    refine ⟨fun habs => by simp [isErrorResult] at habs, ?_⟩
    intro st' hdr' b' heq
    injection heq with h1 h2 h3
    subst h1
    subst h2
    subst h3
    simp [serveHTTP, hnc]
    exact xcache_after _ _

/-- Claim C3, counterexample to the claim as stated: a POST whose
upstream answers 503 is forwarded verbatim as a 503 (with the upstream
body), not synthesized into a 502. -/
theorem c3_counterexample :
    (serveHTTP { ttl := 0, keyHeaders := [] } []
        { method := "POST", path := "/p", rawQuery := "", header := [] }
        (.response 503 [] "oops") 7).response.status = 503 ∧
    ¬ (serveHTTP { ttl := 0, keyHeaders := [] } []
        { method := "POST", path := "/p", rawQuery := "", header := [] }
        (.response 503 [] "oops") 7).response.status = 502 ∧
    (serveHTTP { ttl := 0, keyHeaders := [] } []
        { method := "POST", path := "/p", rawQuery := "", header := [] }
        (.response 503 [] "oops") 7).response.body = "oops" := by
  refine ⟨rfl, by decide, rfl⟩

/-- Claim C3, witness: the amended theorem evaluated on a concrete POST
request with a transport error and with a 503 response. -/
theorem c3_witness :
    ((serveHTTP { ttl := 0, keyHeaders := [] } []
        { method := "POST", path := "/p", rawQuery := "", header := [] }
        (.transportError "dial tcp: refused") 7).response.status = 502 ∧
      (serveHTTP { ttl := 0, keyHeaders := [] } []
        { method := "POST", path := "/p", rawQuery := "", header := [] }
        (.transportError "dial tcp: refused") 7).response.body =
        "Bad Gateway: " ++
          errorMsg (.transportError "dial tcp: refused") ++ "\n" ∧
      (serveHTTP { ttl := 0, keyHeaders := [] } []
        { method := "POST", path := "/p", rawQuery := "", header := [] }
        (.transportError "dial tcp: refused") 7).cache = []) ∧
    headerGet (serveHTTP { ttl := 0, keyHeaders := [] } []
        { method := "POST", path := "/p", rawQuery := "", header := [] }
        (.response 503 [] "oops") 7).response.header "X-Cache" = "BYPASS" := by
  constructor
  · exact (c3_noncacheable { ttl := 0, keyHeaders := [] } []
      { method := "POST", path := "/p", rawQuery := "", header := [] }
      (.transportError "dial tcp: refused") 7 (by decide)).1 rfl
  · exact ((c3_noncacheable { ttl := 0, keyHeaders := [] } []
      { method := "POST", path := "/p", rawQuery := "", header := [] }
      (.response 503 [] "oops") 7 (by decide)).2 503 [] "oops" rfl).2.2.1

lemma headerValues_headerSet_ne (h : Header) (K v name : String)
    (hne : canonicalHeaderKey name ≠ canonicalHeaderKey K) :
    headerValues (headerSet h K v) name = headerValues h name := by
  unfold headerValues headerSet
  rw [findEntry_setCanon]
  simp [hne]

lemma headerValues_copyClient_nil (H : Header) (name : String) :
    headerValues (CopyHeadersForClient [] H) name =
      collectValues H (canonicalHeaderKey name) := by
  rw [copyClient_eq_copyUpstream]
  have := valsExact_copyUpstream (canonicalHeaderKey name) H []
  simpa [headerValues, valsExact, findEntry] using this

/-- Claim C1: for a cacheable request whose upstream attempt fails
(build/transport/read error or status ≥ 500), the handler consults the
store under the request's cache key: on a hit it replies with the
stored status and body, the stored (sanitised) header values for every
ordinary name, `X-Cache: HIT-BACKUP`, `X-Backup-Saved-At` rendered from
the entry's save time, and `X-Served-By: Aegis`; on a miss it replies
502 with a body naming the triggering cause. Moreover a GET that first
stores a 200 response and then receives an upstream 500 is answered 200
with a body identical to the first response's body. -/
theorem c1_failover :
    (∀ (p : ProxyConfig) (c : CacheMap) (r : Request)
        (result : UpstreamResult) (now : Int),
      (r.method == "GET" || r.method == "HEAD") = true →
      isFailure result = true →
      ((cacheGet c (cacheKey p.keyHeaders r) now).2.2 = true →
        (serveHTTP p c r result now).response.status =
          (cacheGet c (cacheKey p.keyHeaders r) now).2.1.status ∧
        (serveHTTP p c r result now).response.body =
          (cacheGet c (cacheKey p.keyHeaders r) now).2.1.body ∧
        headerGet (serveHTTP p c r result now).response.header "X-Cache" =
          "HIT-BACKUP" ∧
        headerGet (serveHTTP p c r result now).response.header
            "X-Backup-Saved-At" =
          formatRFC3339
            (cacheGet c (cacheKey p.keyHeaders r) now).2.1.savedAt ∧
        headerGet (serveHTTP p c r result now).response.header
            "X-Served-By" = "Aegis" ∧
        (∀ name, IsHopByHopHeader name = false →
          canonicalHeaderKey name ≠ "X-Served-By" →
          canonicalHeaderKey name ≠ "X-Cache" →
          canonicalHeaderKey name ≠ "X-Backup-Saved-At" →
          headerValues (serveHTTP p c r result now).response.header name =
            collectValues
              (cacheGet c (cacheKey p.keyHeaders r) now).2.1.header
              (canonicalHeaderKey name))) ∧
      ((cacheGet c (cacheKey p.keyHeaders r) now).2.2 = false →
        (serveHTTP p c r result now).response.status = 502 ∧
        (serveHTTP p c r result now).response.body =
          "Bad Gateway (no cached backup): " ++ failureCause result ++ "\n"))
    ∧ (∀ (p : ProxyConfig) (c : CacheMap) (r : Request) (hdr1 hdr5 : Header)
        (body1 body5 : String) (now1 now2 : Int),
      p.ttl ≤ 0 → r.method = "GET" →
      (serveHTTP p c r (.response 200 hdr1 body1) now1).response.status =
          200 ∧
      (serveHTTP p c r (.response 200 hdr1 body1) now1).response.body =
          body1 ∧
      (serveHTTP p (serveHTTP p c r (.response 200 hdr1 body1) now1).cache r
          (.response 500 hdr5 body5) now2).response.status = 200 ∧
      (serveHTTP p (serveHTTP p c r (.response 200 hdr1 body1) now1).cache r
          (.response 500 hdr5 body5) now2).response.body =
        (serveHTTP p c r (.response 200 hdr1 body1) now1).response.body) := by
  constructor
  · intro p c r result now hc hfail
    have hred : serveHTTP p c r result now =
        tryServeFromCache c (cacheKey p.keyHeaders r)
          (failureCause result) now := by
      cases result with
      | buildError msg => simp [serveHTTP, hc, failureCause]
      | transportError msg => simp [serveHTTP, hc, failureCause]
      | readBodyError msg => simp [serveHTTP, hc, failureCause]
      | response st hdr body =>
        have h5 : (500 : Int) ≤ st := by
          simpa [isFailure, ge_iff_le] using hfail
        simp [serveHTTP, ge_iff_le, hc, h5, failureCause]
    rw [hred]
    constructor
    · intro hg
      rw [tryServe_hit c _ _ now hg]
      refine ⟨rfl, rfl, hit_chain_xcache _ _, ?_, hit_chain_xsb _ _, ?_⟩
      · rw [headerGet_headerSet, if_pos rfl]
      · intro name hnh h1 h2 h3
        have e1 : canonicalHeaderKey "X-Served-By" = "X-Served-By" := rfl
        have e2 : canonicalHeaderKey "X-Cache" = "X-Cache" := rfl
        have e3 : canonicalHeaderKey "X-Backup-Saved-At" =
            "X-Backup-Saved-At" := rfl
        rw [headerValues_headerSet_ne _ _ _ _ (by rw [e3]; exact h3),
          headerValues_headerSet_ne _ _ _ _ (by rw [e2]; exact h2),
          headerValues_headerSet_ne _ _ _ _ (by rw [e1]; exact h1),
          headerValues_copyClient_nil]
    · intro hg
      rw [tryServe_miss c _ _ now hg]
      exact ⟨(httpError_plain _ _).2.2.1, (httpError_plain _ _).2.2.2⟩
  · intro p c r hdr1 hdr5 body1 body5 now1 now2 httl hmet
    have hc : (r.method == "GET" || r.method == "HEAD") = true := by
      simp [hmet]
    have e1 : (serveHTTP p c r (.response 200 hdr1 body1) now1).response.status
        = 200 := by
      simp [serveHTTP, hc]
    have e2 : (serveHTTP p c r (.response 200 hdr1 body1) now1).response.body
        = body1 := by
      simp [serveHTTP, hc]
    have ecache : (serveHTTP p c r (.response 200 hdr1 body1) now1).cache =
        cacheSet c (cacheKey p.keyHeaders r)
          { status := 200, header := CloneHeaderSanitized hdr1,
            body := body1, savedAt := now1,
            expireAt := ZeroOrExpiry now1 p.ttl } := by
      simp [serveHTTP, hc]
    have hred2 : ∀ cc : CacheMap,
        serveHTTP p cc r (.response 500 hdr5 body5) now2 =
          tryServeFromCache cc (cacheKey p.keyHeaders r)
            (failureCause (.response 500 hdr5 body5)) now2 := by
      intro cc
      simp [serveHTTP, hc, failureCause]
    have hfound : cacheGet
        (cacheSet c (cacheKey p.keyHeaders r)
          { status := 200, header := CloneHeaderSanitized hdr1,
            body := body1, savedAt := now1,
            expireAt := ZeroOrExpiry now1 p.ttl })
        (cacheKey p.keyHeaders r) now2 =
        (cacheSet c (cacheKey p.keyHeaders r)
          { status := 200, header := CloneHeaderSanitized hdr1,
            body := body1, savedAt := now1,
            expireAt := ZeroOrExpiry now1 p.ttl },
         { status := 200, header := CloneHeaderSanitized hdr1,
            body := body1, savedAt := now1,
            expireAt := ZeroOrExpiry now1 p.ttl }, true) := by
      simp [cacheGet, cacheLookup_cacheSet_self, ZeroOrExpiry, httl]
    refine ⟨e1, e2, ?_, ?_⟩
    · rw [ecache, hred2,
        tryServe_hit _ _ _ _ (by rw [hfound])]
      rw [hfound]
    · rw [ecache, hred2,
        tryServe_hit _ _ _ _ (by rw [hfound])]
      rw [hfound, e2]

/-- Claim C1, witness: a concrete GET with an empty store and a
transport error yields the synthesized 502 naming the cause, and the
concrete store-then-fail scenario returns the first body from cache. -/
theorem c1_witness :
    ((serveHTTP { ttl := 0, keyHeaders := [] } []
        { method := "GET", path := "/a", rawQuery := "", header := [] }
        (.transportError "refused") 5).response.status = 502 ∧
      (serveHTTP { ttl := 0, keyHeaders := [] } []
        { method := "GET", path := "/a", rawQuery := "", header := [] }
        (.transportError "refused") 5).response.body =
        "Bad Gateway (no cached backup): refused\n") ∧
    ((serveHTTP { ttl := 0, keyHeaders := [] }
        (serveHTTP { ttl := 0, keyHeaders := [] } []
          { method := "GET", path := "/a", rawQuery := "", header := [] }
          (.response 200 [("Content-Type", ["text/plain"])] "hello") 1).cache
        { method := "GET", path := "/a", rawQuery := "", header := [] }
        (.response 500 [] "err") 2).response.status = 200 ∧
      (serveHTTP { ttl := 0, keyHeaders := [] }
        (serveHTTP { ttl := 0, keyHeaders := [] } []
          { method := "GET", path := "/a", rawQuery := "", header := [] }
          (.response 200 [("Content-Type", ["text/plain"])] "hello") 1).cache
        { method := "GET", path := "/a", rawQuery := "", header := [] }
        (.response 500 [] "err") 2).response.body = "hello") := by
  constructor
  · have h := (c1_failover.1 { ttl := 0, keyHeaders := [] } []
      { method := "GET", path := "/a", rawQuery := "", header := [] }
      (.transportError "refused") 5 (by decide) (by decide)).2 (by decide)
    exact ⟨h.1, h.2.trans rfl⟩
  · have h := c1_failover.2 { ttl := 0, keyHeaders := [] } []
      { method := "GET", path := "/a", rawQuery := "", header := [] }
      [("Content-Type", ["text/plain"])] [] "hello" "err" 1 2
      (by decide) rfl
    exact ⟨h.2.2.1, h.2.2.2.trans h.2.1⟩

/-! ## Lemmas about the cache key -/

lemma str_ext (a b : String) (h : a.data = b.data) : a = b := by
  cases a
  cases b
  exact congrArg String.mk h

lemma keySegment_data (h : Header) (hn : String) :
    (keySegment h hn).data =
      if headerGet h hn = "" then []
      else '|' :: (hn.data ++ ':' :: (headerGet h hn).data) := by
  unfold keySegment
  by_cases hv : headerGet h hn = ""
  · simp [hv]
  · have hpipe : ("|" : String).data = ['|'] := rfl
    have hcolon : (":" : String).data = [':'] := rfl
    simp [hv, String.data_append, hpipe, hcolon]

lemma segmentsConcat_cons_data (h : Header) (hn : String)
    (rest : List String) :
    (segmentsConcat h (hn :: rest)).data =
      (keySegment h hn).data ++ (segmentsConcat h rest).data := by
  simp [segmentsConcat, String.data_append]

lemma segmentsConcat_shape (h : Header) :
    ∀ kh : List String, (segmentsConcat h kh).data = [] ∨
      ∃ t, (segmentsConcat h kh).data = '|' :: t
  | [] => Or.inl rfl
  | hn :: rest => by
    rw [segmentsConcat_cons_data, keySegment_data]
    by_cases hv : headerGet h hn = ""
    · rw [if_pos hv, List.nil_append]
      exact segmentsConcat_shape h rest
    · rw [if_neg hv]
      exact Or.inr ⟨_, rfl⟩

lemma sepCancel (c : Char) :
    ∀ (v1 v2 t1 t2 : List Char), c ∉ v1 → c ∉ v2 →
      (t1 = [] ∨ ∃ u, t1 = c :: u) → (t2 = [] ∨ ∃ u, t2 = c :: u) →
      v1 ++ t1 = v2 ++ t2 → v1 = v2 ∧ t1 = t2
  | [], [], t1, t2, _, _, _, _, he => ⟨rfl, by simpa using he⟩
  | [], b :: v2', t1, t2, _, h2, s1, _, he => by
    exfalso
    rcases s1 with rfl | ⟨u, rfl⟩
    · simp at he
    · simp only [List.nil_append, List.cons_append] at he
      injection he with hb _
      exact h2 (by rw [hb]; exact List.mem_cons_self b v2')
  | a :: v1', [], t1, t2, h1, _, _, s2, he => by
    exfalso
    rcases s2 with rfl | ⟨u, rfl⟩
    · simp at he
    · simp only [List.nil_append, List.cons_append] at he
      injection he with hb _
      subst hb
      exact h1 (List.mem_cons_self _ _)
  | a :: v1', b :: v2', t1, t2, h1, h2, s1, s2, he => by
    simp only [List.cons_append] at he
    injection he with hab htail
    subst hab
    have ih := sepCancel c v1' v2' t1 t2
      (fun hm => h1 (List.mem_cons_of_mem _ hm))
      (fun hm => h2 (List.mem_cons_of_mem _ hm)) s1 s2 htail
    exact ⟨by rw [ih.1], ih.2⟩

lemma startChunk (h : Header) (hn : String) (hcol : ':' ∉ hn.data) :
    ∀ kh : List String, (∀ n ∈ kh, ':' ∉ n.data) →
      ∀ t, (segmentsConcat h kh).data = '|' :: (hn.data ++ ':' :: t) →
      headerGet h hn ≠ ""
  | [], _, t, he => by simp [segmentsConcat] at he
  | n :: rest, hnames, t, he => by
    rw [segmentsConcat_cons_data, keySegment_data] at he
    by_cases hv : headerGet h n = ""
    · rw [if_pos hv, List.nil_append] at he
      exact startChunk h hn hcol rest
        (fun m hm => hnames m (List.mem_cons_of_mem _ hm)) t he
    · rw [if_neg hv] at he
      simp only [List.cons_append, List.append_assoc] at he
      injection he with _ he2
      have hc := sepCancel ':' n.data hn.data _ _
        (hnames n (List.mem_cons_self n rest)) hcol
        (Or.inr ⟨_, rfl⟩) (Or.inr ⟨_, rfl⟩) he2
      have hne : n = hn := str_ext n hn hc.1
      rw [← hne]
      exact hv

lemma segments_congr (h1 h2 : Header) :
    ∀ kh : List String,
      (∀ hn ∈ kh, headerGet h1 hn = headerGet h2 hn) →
      segmentsConcat h1 kh = segmentsConcat h2 kh
  | [], _ => rfl
  | hn :: rest, hget => by
    have h1e : headerGet h1 hn = headerGet h2 hn :=
      hget hn (List.mem_cons_self _ _)
    simp only [segmentsConcat, keySegment, h1e,
      segments_congr h1 h2 rest (fun m hm => hget m (List.mem_cons_of_mem _ hm))]

lemma segs_inj (r1h r2h : Header) :
    ∀ kh : List String,
      (∀ hn ∈ kh, ':' ∉ hn.data ∧ '|' ∉ hn.data) →
      (∀ hn ∈ kh, '|' ∉ (headerGet r1h hn).data ∧
        '|' ∉ (headerGet r2h hn).data) →
      segmentsConcat r1h kh = segmentsConcat r2h kh →
      ∀ hn ∈ kh, headerGet r1h hn = headerGet r2h hn
  | [], _, _, _ => by simp
  | hn :: rest, hnames, hvals, he => by
    have hed : (segmentsConcat r1h (hn :: rest)).data =
        (segmentsConcat r2h (hn :: rest)).data := by rw [he]
    rw [segmentsConcat_cons_data, segmentsConcat_cons_data,
      keySegment_data, keySegment_data] at hed
    have hnamesrest : ∀ n ∈ rest, ':' ∉ n.data ∧ '|' ∉ n.data :=
      fun n hm => hnames n (List.mem_cons_of_mem _ hm)
    have hvalsrest : ∀ n ∈ rest, '|' ∉ (headerGet r1h n).data ∧
        '|' ∉ (headerGet r2h n).data :=
      fun n hm => hvals n (List.mem_cons_of_mem _ hm)
    by_cases hv1 : headerGet r1h hn = ""
    · by_cases hv2 : headerGet r2h hn = ""
      · rw [if_pos hv1, if_pos hv2, List.nil_append, List.nil_append] at hed
        have hrest := segs_inj r1h r2h rest hnamesrest hvalsrest
          (str_ext _ _ hed)
        intro m hm
        rcases List.mem_cons.mp hm with rfl | hm'
        · rw [hv1, hv2]
        · exact hrest m hm'
      · exfalso
        rw [if_pos hv1, if_neg hv2, List.nil_append] at hed
        simp only [List.cons_append, List.append_assoc] at hed
        exact startChunk r1h hn (hnames hn (List.mem_cons_self _ _)).1 rest
          (fun n hm => (hnamesrest n hm).1) _ hed hv1
    · by_cases hv2 : headerGet r2h hn = ""
      · exfalso
        rw [if_neg hv1, if_pos hv2, List.nil_append] at hed
        simp only [List.cons_append, List.append_assoc] at hed
        exact startChunk r2h hn (hnames hn (List.mem_cons_self _ _)).1 rest
          (fun n hm => (hnamesrest n hm).1) _ hed.symm hv2
      · rw [if_neg hv1, if_neg hv2] at hed
        simp only [List.cons_append, List.append_assoc] at hed
        injection hed with _ hed2
        have hed3 := List.append_cancel_left hed2
        injection hed3 with _ hed4
        have hc := sepCancel '|' (headerGet r1h hn).data
          (headerGet r2h hn).data _ _
          (hvals hn (List.mem_cons_self _ _)).1
          (hvals hn (List.mem_cons_self _ _)).2
          (segmentsConcat_shape r1h rest) (segmentsConcat_shape r2h rest)
          hed4
        have hvv : headerGet r1h hn = headerGet r2h hn := str_ext _ _ hc.1
        have hBB : segmentsConcat r1h rest = segmentsConcat r2h rest :=
          str_ext _ _ hc.2
        have hrest := segs_inj r1h r2h rest hnamesrest hvalsrest hBB
        intro m hm
        rcases List.mem_cons.mp hm with rfl | hm'
        · exact hvv
        · exact hrest m hm'

lemma foldl_segments (h : Header) :
    ∀ (kh : List String) (acc : String),
      List.foldl
        (fun key headerName =>
          let headerValue := headerGet h headerName
          if headerValue != "" then
            key ++ "|" ++ headerName ++ ":" ++ headerValue
          else key) acc kh
      = acc ++ segmentsConcat h kh
  | [], acc => by
    apply str_ext
    simp [segmentsConcat, String.data_append]
  | hn :: rest, acc => by
    rw [List.foldl_cons, foldl_segments h rest]
    by_cases hv : headerGet h hn = ""
    · apply str_ext
      simp [segmentsConcat, keySegment, hv, String.data_append]
    · apply str_ext
      simp [segmentsConcat, keySegment, hv, String.data_append]

lemma cacheKey_format (kh : List String) (r : Request) :
    cacheKey kh r =
      r.method ++ " " ++ r.path ++ "?" ++ r.rawQuery ++
        segmentsConcat r.header kh := by
  simp only [cacheKey]
  by_cases hl : kh.length > 0
  · rw [if_pos hl, foldl_segments]
  · rw [if_neg hl]
    have hnil : kh = [] := List.length_eq_zero.mp (by omega)
    subst hnil
    apply str_ext
    simp [segmentsConcat, String.data_append]

/-- Claim C5 (amended): the key is `"<METHOD> <path>?<rawQuery>"`
followed by one `"|<name>:<value>"` segment per configured header
carried with a non-empty value, in configuration order; identical
method/path/query/configured-header values give identical keys; and —
provided the configured names contain no `:` or `|` and the carried
values contain no `|` (the unescaped separators) — any difference in an
included header value gives a different key. -/
theorem c5_cache_key :
    (∀ (kh : List String) (r : Request),
      cacheKey kh r =
        r.method ++ " " ++ r.path ++ "?" ++ r.rawQuery ++
          segmentsConcat r.header kh)
    ∧ (∀ (kh : List String) (r1 r2 : Request),
      r1.method = r2.method → r1.path = r2.path →
      r1.rawQuery = r2.rawQuery →
      (∀ hn ∈ kh, headerGet r1.header hn = headerGet r2.header hn) →
      cacheKey kh r1 = cacheKey kh r2)
    ∧ (∀ (kh : List String) (r1 r2 : Request),
      r1.method = r2.method → r1.path = r2.path →
      r1.rawQuery = r2.rawQuery →
      (∀ hn ∈ kh, ':' ∉ hn.data ∧ '|' ∉ hn.data) →
      (∀ hn ∈ kh, '|' ∉ (headerGet r1.header hn).data ∧
        '|' ∉ (headerGet r2.header hn).data) →
      cacheKey kh r1 = cacheKey kh r2 →
      ∀ hn ∈ kh, headerGet r1.header hn = headerGet r2.header hn) := by
  refine ⟨cacheKey_format, ?_, ?_⟩
  · intro kh r1 r2 hm hp hq hget
    rw [cacheKey_format, cacheKey_format, hm, hp, hq,
      segments_congr r1.header r2.header kh hget]
  · intro kh r1 r2 hm hp hq hnames hvals hkey
    rw [cacheKey_format, cacheKey_format, hm, hp, hq] at hkey
    have hd := congrArg String.data hkey
    simp only [String.data_append] at hd
    have hseg : segmentsConcat r1.header kh = segmentsConcat r2.header kh :=
      str_ext _ _ (List.append_cancel_left hd)
    exact segs_inj r1.header r2.header kh hnames hvals hseg

/-- Claim C5, counterexample to the claim as stated: with configured
headers `[Authorization, Accept]`, the requests
`Authorization: x|Accept:y` (no Accept) and
`Authorization: x, Accept: y` differ in an included header value yet
produce the same key, because the separators are not escaped. -/
theorem c5_counterexample :
    cacheKey ["Authorization", "Accept"]
      { method := "GET", path := "/p", rawQuery := "",
        header := [("Authorization", ["x|Accept:y"])] } =
    cacheKey ["Authorization", "Accept"]
      { method := "GET", path := "/p", rawQuery := "",
        header := [("Authorization", ["x"]), ("Accept", ["y"])] } ∧
    headerGet [("Authorization", ["x|Accept:y"])] "Authorization" ≠
      headerGet [("Authorization", ["x"]), ("Accept", ["y"])]
        "Authorization" := by
  exact ⟨by decide, by decide⟩

/-- Claim C5, witness: the amended theorem evaluated on concrete
requests — an unlisted header does not affect the key, and equal keys
force equal Authorization values. -/
theorem c5_witness :
    cacheKey ["Authorization"]
      { method := "GET", path := "/p", rawQuery := "q=1",
        header := [("Authorization", ["tok"]), ("X-Other", ["1"])] } =
    cacheKey ["Authorization"]
      { method := "GET", path := "/p", rawQuery := "q=1",
        header := [("Authorization", ["tok"])] } ∧
    headerGet [("Authorization", ["tok"]), ("X-Other", ["1"])]
        "Authorization" =
      headerGet [("Authorization", ["tok"])] "Authorization" := by
  have hget : ∀ hn ∈ ["Authorization"],
      headerGet [("Authorization", ["tok"]), ("X-Other", ["1"])] hn =
        headerGet [("Authorization", ["tok"])] hn := by
    intro hn hhn
    rcases List.mem_singleton.mp hhn with rfl
    decide
  have hkey := c5_cache_key.2.1 ["Authorization"]
    { method := "GET", path := "/p", rawQuery := "q=1",
      header := [("Authorization", ["tok"]), ("X-Other", ["1"])] }
    { method := "GET", path := "/p", rawQuery := "q=1",
      header := [("Authorization", ["tok"])] } rfl rfl rfl hget
  have hsens := c5_cache_key.2.2 ["Authorization"]
    { method := "GET", path := "/p", rawQuery := "q=1",
      header := [("Authorization", ["tok"]), ("X-Other", ["1"])] }
    { method := "GET", path := "/p", rawQuery := "q=1",
      header := [("Authorization", ["tok"])] } rfl rfl rfl
    (by intro hn hhn; rcases List.mem_singleton.mp hhn with rfl; decide)
    (by intro hn hhn; rcases List.mem_singleton.mp hhn with rfl; decide)
    hkey "Authorization" (List.mem_singleton.mpr rfl)
  exact ⟨hkey, hsens⟩

end Aegis
